import Mathlib

/-!
Formal model of the Transform → Analyze pipeline of the workforce-demographics
batch system (src/etl/transform.py, src/analysis/model.py, src/analysis/evaluate.py).

Numeric cells are modelled as exact rationals; the IEEE-754 special values that
pandas float arithmetic produces (NaN, +inf, -inf) are modelled explicitly by the
`EVal` type, since the pipeline's null-filtering (`dropna`) distinguishes NaN
(treated as null) from infinities (not null).  A missing value in a numeric
column is NaN in pandas, so `EVal.nan` plays both roles.
-/

/-- Extended numeric value: the result of pandas float arithmetic.
`nan` also represents a missing (null) entry of a numeric column. -/
inductive EVal where
  | nan
  | inf
  | neginf
  | num (q : ℚ)
deriving DecidableEq

namespace EVal

/-- IEEE negation. -/
def neg : EVal → EVal
  | nan => nan
  | inf => neginf
  | neginf => inf
  | num q => num (-q)

/-- IEEE addition: NaN absorbs, inf + (-inf) = NaN. -/
def add : EVal → EVal → EVal
  | nan, _ => nan
  | _, nan => nan
  | inf, neginf => nan
  | neginf, inf => nan
  | inf, _ => inf
  | _, inf => inf
  | neginf, _ => neginf
  | _, neginf => neginf
  | num a, num b => num (a + b)

/-- IEEE subtraction. -/
def sub (a b : EVal) : EVal := a.add b.neg

/-- IEEE multiplication: NaN absorbs, inf * 0 = NaN. -/
def mul : EVal → EVal → EVal
  | nan, _ => nan
  | _, nan => nan
  | inf, inf => inf
  | inf, neginf => neginf
  | neginf, inf => neginf
  | neginf, neginf => inf
  | inf, num b => if b = 0 then nan else if 0 < b then inf else neginf
  | num a, inf => if a = 0 then nan else if 0 < a then inf else neginf
  | neginf, num b => if b = 0 then nan else if 0 < b then neginf else inf
  | num a, neginf => if a = 0 then nan else if 0 < a then neginf else inf
  | num a, num b => num (a * b)

/-- IEEE division (zero is treated as +0, as produced by pandas numeric coercion):
finite/0 is ±inf (NaN for 0/0), inf/inf is NaN, finite/inf is 0. -/
def div : EVal → EVal → EVal
  | nan, _ => nan
  | _, nan => nan
  | inf, inf => nan
  | inf, neginf => nan
  | neginf, inf => nan
  | neginf, neginf => nan
  | inf, num b => if 0 ≤ b then inf else neginf
  | neginf, num b => if 0 ≤ b then neginf else inf
  | num _, inf => num 0
  | num _, neginf => num 0
  | num a, num b => if b = 0 then (if a = 0 then nan else if 0 < a then inf else neginf) else num (a / b)

/-- Square, as python `x ** 2`. -/
def sq (v : EVal) : EVal := v.mul v

/-- `pd.isna`: true exactly on NaN (infinities are not null). -/
def isna : EVal → Bool
  | nan => true
  | _ => false

end EVal

/-- One percentage column entry, model.py line 59: `df[count_col] / df[total_col] * 100`.
The inputs are the `pd.to_numeric(..., errors='coerce')` results: `none` means the
cell was missing or non-numeric (NaN after coercion); an absent subgroup column
(model.py line 61, `df[pct_col] = None`) behaves like every cell being `none`. -/
def pct (count total : Option ℚ) : EVal :=
  match count, total with
  | some c, some t => ((EVal.num c).div (EVal.num t)).mul (EVal.num 100)
  | _, _ => EVal.nan

/-- One cleaned input row of the Feature Deriver (model.py): the resolved
total-employees cell and the four demographic count cells, each already passed
through `pd.to_numeric(..., errors='coerce')`. -/
structure Row where
  total : Option ℚ
  wht : Option ℚ
  blk : Option ℚ
  hisp : Option ℚ
  asian : Option ℚ
deriving DecidableEq

/-- An enriched record (model.py lines 55-71): the four percentage fields, the
minority share `100 - Pct_White` and the Gini-Simpson diversity index. -/
structure EnrichedRow where
  pctWhite : EVal
  pctBlack : EVal
  pctHispanic : EVal
  pctAsian : EVal
  pctMinority : EVal
  diversityIndex : EVal
deriving DecidableEq

/-- The diversity index of model.py line 71 at the EVal level:
`1 - sum((row/100)**2)` over the four percentage fields, summed left to right. -/
def diversityIndexE (p1 p2 p3 p4 : EVal) : EVal :=
  (EVal.num 1).sub
    ((((p1.div (EVal.num 100)).sq.add ((p2.div (EVal.num 100)).sq)).add
      ((p3.div (EVal.num 100)).sq)).add ((p4.div (EVal.num 100)).sq))

/-- The diversity index formula on finite shares (model.py line 71). -/
def Diversity_Index (s1 s2 s3 s4 : ℚ) : ℚ :=
  1 - ((s1 / 100) ^ 2 + (s2 / 100) ^ 2 + (s3 / 100) ^ 2 + (s4 / 100) ^ 2)

/-- The `dropna(subset=pct_cols)` row predicate (model.py line 64): a row is kept
iff none of its four percentage fields is NaN/null. -/
def surviveRow (r : Row) : Bool :=
  !(pct r.wht r.total).isna && !(pct r.blk r.total).isna &&
    !(pct r.hisp r.total).isna && !(pct r.asian r.total).isna

/-- Per-row feature derivation (model.py lines 55-71): compute the four
percentages, drop the row if any is null (`dropna`), otherwise attach
`Pct_Minority = 100 - Pct_White` (line 70) and `Diversity_Index` (line 71). -/
def enrichRow (r : Row) : Option EnrichedRow :=
  let p1 := pct r.wht r.total
  let p2 := pct r.blk r.total
  let p3 := pct r.hisp r.total
  let p4 := pct r.asian r.total
  if p1.isna || p2.isna || p3.isna || p4.isna then none
  else some ⟨p1, p2, p3, p4, (EVal.num 100).sub p1, diversityIndexE p1 p2 p3 p4⟩

/-- The stage-abort conditions in run_analysis, which the spec names as an error
taxonomy: the code prints a message and returns without computing anything. -/
inductive StageError where
  | schemaResolutionError
  | emptyResultError
deriving DecidableEq

/-- The fixed alias priority list of model.py line 41. -/
def totalAliases : List String := ["Total_Employees", "TOTAL10", "TOTAL1"]

/-- model.py line 41: `next((c for c in [...] if c in df.columns), None)` —
the first alias present among the dataframe's columns. -/
def resolveTotalCol (cols : List String) : Option String :=
  totalAliases.find? (fun c => cols.contains c)

/-- The Feature Deriver stage (model.py lines 41-71): resolve the total column
(abort with a schema-resolution failure if no alias is present, line 42-44),
derive per-row percentages and drop incomplete rows (lines 55-64), and abort
with an empty-result failure when no row survives (lines 65-67). -/
def featureDerive (cols : List String) (rows : List Row) : Except StageError (List EnrichedRow) :=
  match resolveTotalCol cols with
  | none => Except.error StageError.schemaResolutionError
  | some _ =>
    let enriched := rows.filterMap enrichRow
    if enriched.isEmpty then Except.error StageError.emptyResultError else Except.ok enriched

/-! ### The Cleaner (src/etl/transform.py) -/

/-- A cell of the raw table: null (NaN), a string, or a number. -/
inductive Cell where
  | null
  | str (s : String)
  | num (q : ℚ)
deriving DecidableEq

/-- A raw row is the list of its cells in column order. -/
abbrev CRow := List Cell

/-- Python's whitespace class for `str.strip()`. -/
def isPySpace (c : Char) : Bool :=
  c = ' ' || c = '\t' || c = '\n' || c = '\r' || c = '\x0b' || c = '\x0c'

/-- `str.strip()`: remove leading and trailing whitespace. -/
def pyStrip (s : String) : String :=
  String.mk (((s.data.dropWhile isPySpace).reverse.dropWhile isPySpace).reverse)

/-- `.str.strip()` on object columns (transform.py lines 66-68): trims string
cells, leaves other cells unchanged. -/
def stripCell : Cell → Cell
  | Cell.str s => Cell.str (pyStrip s)
  | c => c

/-- Is this cell null? -/
def isNullCell : Cell → Bool
  | Cell.null => true
  | _ => false

/-- A row contains a null cell (`df.dropna()` drops exactly these rows). -/
def hasNull (r : CRow) : Bool := r.any isNullCell

/-- Keep-first deduplication, as pandas `drop_duplicates` (transform.py line 60);
pandas treats NaN cells as equal to each other, as does `Cell.null` here. -/
def dropDupAux {α : Type} [DecidableEq α] (seen : List α) : List α → List α
  | [] => []
  | x :: xs => if x ∈ seen then dropDupAux seen xs else x :: dropDupAux (x :: seen) xs

/-- `df.drop_duplicates()`: keep the first occurrence of each distinct row. -/
def dropDuplicates {α : Type} [DecidableEq α] (l : List α) : List α := dropDupAux [] l

/-- The Cleaner's row pipeline (transform.py lines 59-68), in source order:
drop duplicate rows, then drop rows containing any null, then strip whitespace
from string cells.  (The categorical cast of lines 70-74 is value-preserving and
the renames of lines 76-86 act on column names, not row contents; they are
modelled at the column level by `transformedCols` below.) -/
def transform_data (t : List CRow) : List CRow :=
  ((dropDuplicates t).filter (fun r => !hasNull r)).map (fun r => r.map stripCell)

/-- The column rename map of transform.py lines 77-82. -/
def renameCol (c : String) : String :=
  if c = "NAICS2_Name" then "Industry_Sector"
  else if c = "TOTAL10" then "Total_Employees"
  else c

/-- The Cleaner's effect on the column list (transform.py lines 76-86): rename,
then append a derived `Pct_White` column when both `WHT10` and `TOTAL10` are
still present (line 85). -/
def transformedCols (cols : List String) : List String :=
  let renamed := cols.map renameCol
  if "WHT10" ∈ renamed ∧ "TOTAL10" ∈ renamed then renamed ++ ["Pct_White"] else renamed

/-! ### The Regression Engine (model.py lines 101-126) -/

/-- A regression input row: the categorical predictors and the target. -/
structure RegRow where
  region : String
  industrySector : Option String
  pctWhiteVal : ℚ
deriving DecidableEq

/-- sklearn `train_test_split(test_size=0.2)` test-set size: `ceil(0.2 * n)`. -/
def nTest (n : ℕ) : ℕ := (n + 4) / 5

/-- The held-out test set: the first `nTest` rows of the seed-42 shuffle
(sklearn takes the test indices from the front of the shuffled permutation).
The shuffle itself is the library's seeded RNG, so the shuffled list is the
argument here. -/
def testSet {α : Type} (shuffled : List α) : List α := shuffled.take (nTest shuffled.length)

/-- The training set: the remaining rows of the shuffle. -/
def trainSet {α : Type} (shuffled : List α) : List α := shuffled.drop (nTest shuffled.length)

/-- Sum of squared errors between paired true/predicted values. -/
def sqErrSum (yTrue yPred : List ℚ) : ℚ :=
  ((yTrue.zip yPred).map (fun p => (p.1 - p.2) ^ 2)).sum

/-- sklearn `mean_squared_error`. -/
def mean_squared_error (yTrue yPred : List ℚ) : ℚ :=
  sqErrSum yTrue yPred / (yTrue.length : ℚ)

/-- sklearn `r2_score` (`model.score`): `1 - ssRes/ssTot`, with the library's
zero-variance convention: when `ssTot = 0` the score is 1 if the fit is exact
and 0 otherwise (never a division by zero). -/
def r2_score (yTrue yPred : List ℚ) : ℚ :=
  let ssRes := sqErrSum yTrue yPred
  let m := yTrue.sum / (yTrue.length : ℚ)
  let ssTot := (yTrue.map (fun y => (y - m) ^ 2)).sum
  if ssTot = 0 then (if ssRes = 0 then 1 else 0) else 1 - ssRes / ssTot

/-- The Regression Engine glue (model.py lines 111-116): split the shuffled rows
80/20, fit on the training rows, and compute R squared and MSE on the held-out
test rows only.  `fit` is sklearn's `LinearRegression().fit`, treated as an
opaque deterministic function from the training rows to a predictor. -/
def regressionStage (fit : List RegRow → RegRow → ℚ) (shuffled : List RegRow) : ℚ × ℚ :=
  let tr := trainSet shuffled
  let te := testSet shuffled
  let model := fit tr
  let yTest := te.map RegRow.pctWhiteVal
  let yPred := te.map model
  (r2_score yTest yPred, mean_squared_error yTest yPred)

/-! ### The Cluster Engine (model.py lines 84-97) and its evaluation
(src/analysis/evaluate.py) -/

/-- A feature vector: the four percentage columns, in the fixed order
Pct_White, Pct_Black, Pct_Hispanic, Pct_Asian. -/
abbrev Point := ℚ × ℚ × ℚ × ℚ

/-- Mean of a list of rationals. -/
def meanList (qs : List ℚ) : ℚ := qs.sum / (qs.length : ℚ)

/-- numpy round-half-to-even at integer precision. -/
def roundHalfEven (q : ℚ) : ℤ :=
  let f := ⌊q⌋
  let frac := q - (f : ℚ)
  if frac < 1 / 2 then f
  else if 1 / 2 < frac then f + 1
  else if f % 2 = 0 then f else f + 1

/-- pandas `.round(1)`: round to one decimal, ties to even. -/
def round1 (q : ℚ) : ℚ := ((roundHalfEven (10 * q) : ℚ)) / 10

/-- Componentwise mean of a list of feature vectors. -/
def meanPoint (ps : List Point) : Point :=
  (meanList (ps.map (fun p => p.1)), meanList (ps.map (fun p => p.2.1)),
   meanList (ps.map (fun p => p.2.2.1)), meanList (ps.map (fun p => p.2.2.2)))

/-- Componentwise `.round(1)`. -/
def roundPoint (p : Point) : Point :=
  (round1 p.1, round1 p.2.1, round1 p.2.2.1, round1 p.2.2.2)

/-- model.py line 90: `groupby('Cluster')[...].mean().round(1)` — one row per
label present, in ascending label order (labels from a 3-cluster fit lie in
{0,1,2}; pandas groupby sorts its keys). -/
def clusterSummary (labels : List ℕ) (X : List Point) : List (ℕ × Point) :=
  ((List.range 3).filter (fun k => labels.contains k)).map
    (fun k => (k, roundPoint (meanPoint (((labels.zip X).filter (fun lp => lp.1 = k)).map
      (fun lp => lp.2)))))

/-- The Cluster Engine (model.py lines 84-96): `KMeans(n_clusters=3,
random_state=42)` labels, the per-cluster feature-mean summary, and the
silhouette score of the same features and labels.  `kmeans` is sklearn's seeded
fit_predict and `sil` its silhouette_score, both opaque deterministic functions
of their arguments; the seed 42 is the constant the source passes. -/
def clusterStage (kmeans : ℕ → List Point → List ℕ) (sil : List Point → List ℕ → ℚ)
    (X : List Point) : List ℕ × List (ℕ × Point) × ℚ :=
  let labels := kmeans 42 X
  (labels, clusterSummary labels X, sil X labels)

/-- model.py line 93: the persisted `clustered_employers.csv` — the `Cluster`
label column followed by the four percentage columns, row-aligned with `X`. -/
def clusteredTable (kmeans : ℕ → List Point → List ℕ) (X : List Point) : List (ℕ × Point) :=
  (kmeans 42 X).zip X

/-- model.py line 94: the silhouette score computed at fit time. -/
def silhouetteAtFit (kmeans : ℕ → List Point → List ℕ) (sil : List Point → List ℕ → ℚ)
    (X : List Point) : ℚ :=
  sil X (kmeans 42 X)

/-- evaluate.py lines 20-28: re-read the persisted cluster table, take its four
feature columns and its saved `Cluster` labels, and recompute the silhouette
score.  (Persistence through CSV is modelled as exact.) -/
def evaluate_models (sil : List Point → List ℕ → ℚ) (table : List (ℕ × Point)) : ℚ :=
  sil (table.map Prod.snd) (table.map Prod.fst)

/-! ### Helper lemmas -/

/-- Membership in the deduplicated list implies membership in the original list. -/
lemma mem_of_mem_dropDupAux {α : Type} [DecidableEq α] {x : α} :
    ∀ {seen l : List α}, x ∈ dropDupAux seen l → x ∈ l := by
  intro seen l
  induction l generalizing seen with
  | nil => intro h; simp [dropDupAux] at h
  | cons a t ih =>
    intro h
    simp only [dropDupAux] at h
    split at h
    · exact List.mem_cons_of_mem _ (ih h)
    · rcases List.mem_cons.mp h with rfl | h
      · exact List.mem_cons_self _ _
      · exact List.mem_cons_of_mem _ (ih h)

/-- An element of the deduplicated tail was not among the already-seen elements. -/
lemma not_mem_seen_of_mem_dropDupAux {α : Type} [DecidableEq α] {x : α} :
    ∀ {seen l : List α}, x ∈ dropDupAux seen l → x ∉ seen := by
  intro seen l
  induction l generalizing seen with
  | nil => intro h; simp [dropDupAux] at h
  | cons a t ih =>
    intro h
    simp only [dropDupAux] at h
    split at h
    · exact ih h
    · rcases List.mem_cons.mp h with rfl | h
      · assumption
      · intro hx
        exact ih h (List.mem_cons_of_mem _ hx)

/-- Keep-first deduplication yields a duplicate-free list. -/
lemma nodup_dropDupAux {α : Type} [DecidableEq α] :
    ∀ (seen l : List α), (dropDupAux seen l).Nodup := by
  intro seen l
  induction l generalizing seen with
  | nil => simp [dropDupAux]
  | cons a t ih =>
    simp only [dropDupAux]
    split
    · exact ih seen
    · refine List.Nodup.cons ?_ (ih (a :: seen))
      intro hmem
      exact not_mem_seen_of_mem_dropDupAux hmem (List.mem_cons_self _ _)

/-- Deduplication only removes rows, it never invents one. -/
lemma mem_of_mem_dropDuplicates {α : Type} [DecidableEq α] {x : α} {l : List α}
    (h : x ∈ dropDuplicates l) : x ∈ l :=
  mem_of_mem_dropDupAux h

/-- `drop_duplicates` yields a duplicate-free list. -/
lemma nodup_dropDuplicates {α : Type} [DecidableEq α] (l : List α) :
    (dropDuplicates l).Nodup :=
  nodup_dropDupAux [] l

/-- Whitespace stripping never turns a cell into a null or a null into a value. -/
lemma isNullCell_stripCell (c : Cell) : isNullCell (stripCell c) = isNullCell c := by
  cases c <;> rfl

/-- A row produces an enriched record exactly when it passes the `dropna` filter. -/
lemma enrichRow_isSome (r : Row) : (enrichRow r).isSome = surviveRow r := by
  by_cases h1 : (pct r.wht r.total).isna <;> by_cases h2 : (pct r.blk r.total).isna <;>
    by_cases h3 : (pct r.hisp r.total).isna <;> by_cases h4 : (pct r.asian r.total).isna <;>
    simp [enrichRow, surviveRow, h1, h2, h3, h4]

/-- The derived fields of any produced enriched record are exactly the source's
formulas over its own percentage fields (model.py lines 70-71). -/
lemma enrichRow_fields {r : Row} {e : EnrichedRow} (h : enrichRow r = some e) :
    e.pctMinority = (EVal.num 100).sub e.pctWhite ∧
    e.diversityIndex = diversityIndexE e.pctWhite e.pctBlack e.pctHispanic e.pctAsian := by
  simp only [enrichRow] at h
  split at h
  · exact absurd h (by simp)
  · rw [Option.some.injEq] at h
    subst h
    exact ⟨rfl, rfl⟩

/-- On finite (non-NaN, non-infinite) shares the EVal diversity index agrees with
the rational formula. -/
lemma diversityIndexE_num (a b c d : ℚ) :
    diversityIndexE (EVal.num a) (EVal.num b) (EVal.num c) (EVal.num d) =
      EVal.num (Diversity_Index a b c d) := by
  norm_num [diversityIndexE, Diversity_Index, EVal.div, EVal.sq, EVal.mul, EVal.add,
    EVal.sub, EVal.neg]
  ring

/-- Range and degeneracy analysis of the Gini-Simpson formula on non-negative
shares summing to at most 100: the index lies in [0, 1], and vanishes exactly
when a single share is 100 and the others are 0. -/
lemma di_core (s1 s2 s3 s4 : ℚ) (h1 : 0 ≤ s1) (h2 : 0 ≤ s2) (h3 : 0 ≤ s3) (h4 : 0 ≤ s4)
    (hsum : s1 + s2 + s3 + s4 ≤ 100) :
    0 ≤ Diversity_Index s1 s2 s3 s4 ∧ Diversity_Index s1 s2 s3 s4 ≤ 1 ∧
    (Diversity_Index s1 s2 s3 s4 = 0 ↔
      (s1 = 100 ∧ s2 = 0 ∧ s3 = 0 ∧ s4 = 0) ∨ (s2 = 100 ∧ s1 = 0 ∧ s3 = 0 ∧ s4 = 0) ∨
      (s3 = 100 ∧ s1 = 0 ∧ s2 = 0 ∧ s4 = 0) ∨ (s4 = 100 ∧ s1 = 0 ∧ s2 = 0 ∧ s3 = 0)) := by
  unfold Diversity_Index
  have e1 : s1 ^ 2 ≤ 100 * s1 := by nlinarith [mul_nonneg h1 (by linarith : (0:ℚ) ≤ 100 - s1)]
  have e2 : s2 ^ 2 ≤ 100 * s2 := by nlinarith [mul_nonneg h2 (by linarith : (0:ℚ) ≤ 100 - s2)]
  have e3 : s3 ^ 2 ≤ 100 * s3 := by nlinarith [mul_nonneg h3 (by linarith : (0:ℚ) ≤ 100 - s3)]
  have e4 : s4 ^ 2 ≤ 100 * s4 := by nlinarith [mul_nonneg h4 (by linarith : (0:ℚ) ≤ 100 - s4)]
  have hb : s1 ^ 2 + s2 ^ 2 + s3 ^ 2 + s4 ^ 2 ≤ 10000 := by linarith
  refine ⟨?_, ?_, ?_⟩
  · nlinarith [hb]
  · have hpos : 0 ≤ (s1 / 100) ^ 2 + (s2 / 100) ^ 2 + (s3 / 100) ^ 2 + (s4 / 100) ^ 2 := by
      positivity
    linarith
  · constructor
    · intro h0
      have hq : s1 ^ 2 + s2 ^ 2 + s3 ^ 2 + s4 ^ 2 = 10000 := by linear_combination -10000 * h0
      have hs100 : s1 + s2 + s3 + s4 = 100 := by linarith
      have T : s1 * (100 - s1) + s2 * (100 - s2) + s3 * (100 - s3) + s4 * (100 - s4) = 0 := by
        linear_combination 100 * hs100 - hq
      have z1 : s1 * (100 - s1) = 0 := by
        apply le_antisymm <;> linarith [e1, e2, e3, e4, T]
      have z2 : s2 * (100 - s2) = 0 := by
        apply le_antisymm <;> linarith [e1, e2, e3, e4, T]
      have z3 : s3 * (100 - s3) = 0 := by
        apply le_antisymm <;> linarith [e1, e2, e3, e4, T]
      have z4 : s4 * (100 - s4) = 0 := by
        apply le_antisymm <;> linarith [e1, e2, e3, e4, T]
      have d1 : s1 = 0 ∨ s1 = 100 := by
        rcases mul_eq_zero.mp z1 with h | h
        · exact Or.inl h
        · exact Or.inr (by linarith)
      have d2 : s2 = 0 ∨ s2 = 100 := by
        rcases mul_eq_zero.mp z2 with h | h
        · exact Or.inl h
        · exact Or.inr (by linarith)
      have d3 : s3 = 0 ∨ s3 = 100 := by
        rcases mul_eq_zero.mp z3 with h | h
        · exact Or.inl h
        · exact Or.inr (by linarith)
      have d4 : s4 = 0 ∨ s4 = 100 := by
        rcases mul_eq_zero.mp z4 with h | h
        · exact Or.inl h
        · exact Or.inr (by linarith)
      rcases d1 with h1e | h1e <;> rcases d2 with h2e | h2e <;> rcases d3 with h3e | h3e <;>
        rcases d4 with h4e | h4e <;> subst_vars <;> norm_num at hs100 ⊢
    · intro h
      rcases h with ⟨ha, hb4, hc, hd⟩ | ⟨ha, hb4, hc, hd⟩ | ⟨ha, hb4, hc, hd⟩ | ⟨ha, hb4, hc, hd⟩ <;>
        subst_vars <;> norm_num

/-! ### Claims -/

/-- C1: the claim says every row whose total-employees value is 0 or null is
excluded from all percentage-derived outputs.  The code violates this: a row
with total 0 and positive subgroup counts gets +inf percentages (division by
zero), is NOT dropped by the `dropna` post-filter (inf is not null), and flows
into every downstream table.  Only null totals, and 0 totals paired with a 0
count (0/0 = NaN), are dropped.  This theorem evaluates the embedded code at
the failing input and at the dropped variants. -/
theorem C1_zero_total_row_survives :
    (enrichRow ⟨some 0, some 5, some 5, some 5, some 5⟩).isSome = true ∧
    (enrichRow ⟨some 0, some 5, some 5, some 5, some 5⟩).map EnrichedRow.pctWhite
      = some EVal.inf ∧
    pct (some 5) (some 0) = EVal.inf ∧ pct (some 0) (some 0) = EVal.nan ∧
    pct none (some 5) = EVal.nan ∧ pct (some 5) none = EVal.nan := by
  decide

/-- C2 (amended): for every enriched record with finite shares that are
non-negative and sum to at most 100 (the raw-record invariant, which the code
does not enforce), the diversity index is the source formula's value, lies in
[0, 1] — the right endpoint 1 is attained, at all-zero shares — and equals 0
iff exactly one share is 100 and the rest are 0. -/
theorem C2_diversity_index (r : Row) (e : EnrichedRow) (s1 s2 s3 s4 : ℚ)
    (he : enrichRow r = some e)
    (hw : e.pctWhite = EVal.num s1) (hbk : e.pctBlack = EVal.num s2)
    (hh : e.pctHispanic = EVal.num s3) (ha : e.pctAsian = EVal.num s4)
    (hn1 : 0 ≤ s1) (hn2 : 0 ≤ s2) (hn3 : 0 ≤ s3) (hn4 : 0 ≤ s4)
    (hsum : s1 + s2 + s3 + s4 ≤ 100) :
    e.diversityIndex = EVal.num (Diversity_Index s1 s2 s3 s4) ∧
    0 ≤ Diversity_Index s1 s2 s3 s4 ∧ Diversity_Index s1 s2 s3 s4 ≤ 1 ∧
    (Diversity_Index s1 s2 s3 s4 = 0 ↔
      (s1 = 100 ∧ s2 = 0 ∧ s3 = 0 ∧ s4 = 0) ∨ (s2 = 100 ∧ s1 = 0 ∧ s3 = 0 ∧ s4 = 0) ∨
      (s3 = 100 ∧ s1 = 0 ∧ s2 = 0 ∧ s4 = 0) ∨ (s4 = 100 ∧ s1 = 0 ∧ s2 = 0 ∧ s3 = 0)) := by
  obtain ⟨hmin, hdi⟩ := enrichRow_fields he
  refine ⟨?_, di_core s1 s2 s3 s4 hn1 hn2 hn3 hn4 hsum⟩
  rw [hdi, hw, hbk, hh, ha, diversityIndexE_num]

/-- C2 counterexample: the claim as stated says the diversity index of every
enriched record lies in [0, 1).  A row with total 100 and all four subgroup
counts 0 survives the filter (all percentages are 0, not null) and its
diversity index is exactly 1, which is not less than 1. -/
theorem C2_counterexample :
    (enrichRow ⟨some 100, some 0, some 0, some 0, some 0⟩).map EnrichedRow.diversityIndex =
      some (EVal.num 1) ∧ ¬ ((1 : ℚ) < 1) := by
  constructor
  · norm_num [enrichRow, pct, EVal.div, EVal.mul, EVal.sq, EVal.add, EVal.sub, EVal.neg,
      EVal.isna, diversityIndexE]
  · norm_num

/-- C2 witness: the amended theorem applied to the enriched record of the row
with total 100 and counts (100, 0, 0, 0), whose diversity index is 0. -/
theorem C2_witness :
    0 ≤ Diversity_Index 100 0 0 0 ∧ Diversity_Index 100 0 0 0 ≤ 1 ∧
      Diversity_Index 100 0 0 0 = 0 := by
  have h := C2_diversity_index ⟨some 100, some 100, some 0, some 0, some 0⟩
    ⟨EVal.num 100, EVal.num 0, EVal.num 0, EVal.num 0, EVal.num 0, EVal.num 0⟩
    100 0 0 0
    (by norm_num [enrichRow, pct, EVal.div, EVal.mul, EVal.sq, EVal.add, EVal.sub, EVal.neg,
      EVal.isna, diversityIndexE])
    rfl rfl rfl rfl (by norm_num) (by norm_num) (by norm_num) (by norm_num) (by norm_num)
  exact ⟨h.2.1, h.2.2.1, h.2.2.2.mpr (Or.inl (by norm_num))⟩

/-- C3 counterexample: the claim says the Cleaner's output never contains two
identical rows.  But stripping runs AFTER deduplication (transform.py lines 60
and 66-68), so the rows [" a"] and ["a "] — distinct at dedup time, null-free —
are both kept and then both trimmed to ["a"]: the output has duplicates. -/
theorem C3_counterexample :
    transform_data [[Cell.str " a"], [Cell.str "a "]] = [[Cell.str "a"], [Cell.str "a"]] ∧
    ¬ (transform_data [[Cell.str " a"], [Cell.str "a "]]).Nodup := by
  constructor <;> decide

/-- C3 (amended): the Cleaner's output never contains a row with a null field;
and it contains no duplicate rows provided every text cell of the input is
already trimmed (whitespace trimming, which runs after deduplication, is the
only way two distinct surviving rows can become equal). -/
theorem C3_cleaner_output (t : List CRow) :
    (∀ r ∈ transform_data t, hasNull r = false) ∧
    ((∀ r ∈ t, ∀ c ∈ r, stripCell c = c) → (transform_data t).Nodup) := by
  constructor
  · intro r hr
    simp only [transform_data, List.mem_map] at hr
    obtain ⟨r0, hr0, rfl⟩ := hr
    have h0 : hasNull r0 = false := by
      have hh := (List.mem_filter.mp hr0).2
      simpa using hh
    simp only [hasNull] at h0 ⊢
    have hfun : (isNullCell ∘ stripCell) = isNullCell := funext isNullCell_stripCell
    rw [List.any_map, hfun]
    exact h0
  · intro htrim
    have hmapid : ((dropDuplicates t).filter (fun r => !hasNull r)).map (fun r => r.map stripCell)
        = (dropDuplicates t).filter (fun r => !hasNull r) := by
      have hall : ∀ r ∈ (dropDuplicates t).filter (fun r => !hasNull r),
          r.map stripCell = r := by
        intro r hr
        have hmem : r ∈ t := mem_of_mem_dropDuplicates (List.mem_of_mem_filter hr)
        have hid : ∀ c ∈ r, stripCell c = c := htrim r hmem
        calc r.map stripCell = r.map id := List.map_congr_left hid
          _ = r := List.map_id r
      calc ((dropDuplicates t).filter (fun r => !hasNull r)).map (fun r => r.map stripCell)
            = ((dropDuplicates t).filter (fun r => !hasNull r)).map id :=
              List.map_congr_left hall
        _ = _ := List.map_id _
    unfold transform_data
    rw [hmapid]
    exact List.Nodup.filter _ (nodup_dropDuplicates t)

/-- C3 witness: the amended theorem applied to a pre-trimmed three-row table
with one duplicate row: the output is null-free and duplicate-free. -/
theorem C3_witness :
    (∀ r ∈ transform_data [[Cell.str "a"], [Cell.num 1], [Cell.str "a"]], hasNull r = false) ∧
    (transform_data [[Cell.str "a"], [Cell.num 1], [Cell.str "a"]]).Nodup := by
  have h := C3_cleaner_output [[Cell.str "a"], [Cell.num 1], [Cell.str "a"]]
  exact ⟨h.1, h.2 (by decide)⟩

/-- C4 counterexample: the claim quantifies over every enriched record, but the
record produced from total 0 with positive counts has `Pct_White = +inf`, so
`Pct_Minority = 100 - inf = -inf` and their sum is NaN, which is not 100 within
any tolerance. -/
theorem C4_counterexample :
    (enrichRow ⟨some 0, some 5, some 5, some 5, some 5⟩).map
        (fun e => e.pctMinority.add e.pctWhite) = some EVal.nan ∧
    EVal.nan ≠ EVal.num 100 := by
  constructor <;> decide

/-- C4 (amended): for every enriched record whose majority share `Pct_White` is
finite, `Pct_Minority + Pct_White = 100` exactly, because the minority share is
derived as `100 - Pct_White` (model.py line 70). -/
theorem C4_minority_complement (r : Row) (e : EnrichedRow) (q : ℚ)
    (he : enrichRow r = some e) (hq : e.pctWhite = EVal.num q) :
    e.pctMinority.add e.pctWhite = EVal.num 100 := by
  obtain ⟨hmin, -⟩ := enrichRow_fields he
  rw [hmin, hq]
  simp [EVal.sub, EVal.add, EVal.neg]

/-- C4 witness: the amended theorem applied to the enriched record of the row
with total 100 and counts (40, 30, 20, 10): minority 60 plus white 40 is 100. -/
theorem C4_witness : (EVal.num 60).add (EVal.num 40) = EVal.num 100 := by
  have he : enrichRow ⟨some 100, some 40, some 30, some 20, some 10⟩ =
      some ⟨EVal.num 40, EVal.num 30, EVal.num 20, EVal.num 10, EVal.num 60,
        EVal.num (7 / 10)⟩ := by
    norm_num [enrichRow, pct, EVal.div, EVal.mul, EVal.sq, EVal.add, EVal.sub, EVal.neg,
      EVal.isna, diversityIndexE]
  exact C4_minority_complement _ _ 40 he rfl

/-- C5: on any 10-row regression input the seeded 80/20 split holds exactly 2
rows out for testing and trains on the other 8 (the two parts partition the
shuffled input); the R squared and MSE the stage reports are computed from the
held-out rows only (using the model fitted on the 8 training rows); and the MSE
is non-negative.  The OLS solver itself is sklearn's and is quantified over
as an opaque fit function; R squared is finite by construction, its
zero-variance case being guarded (see `r2_score`). -/
theorem C5_regression_split (fit : List RegRow → RegRow → ℚ) (shuffled : List RegRow)
    (hlen : shuffled.length = 10) :
    (trainSet shuffled).length = 8 ∧ (testSet shuffled).length = 2 ∧
    testSet shuffled ++ trainSet shuffled = shuffled ∧
    regressionStage fit shuffled =
      (r2_score ((testSet shuffled).map RegRow.pctWhiteVal)
         ((testSet shuffled).map (fit (trainSet shuffled))),
       mean_squared_error ((testSet shuffled).map RegRow.pctWhiteVal)
         ((testSet shuffled).map (fit (trainSet shuffled)))) ∧
    0 ≤ mean_squared_error ((testSet shuffled).map RegRow.pctWhiteVal)
         ((testSet shuffled).map (fit (trainSet shuffled))) := by
  refine ⟨?_, ?_, List.take_append_drop _ _, rfl, ?_⟩
  · simp [trainSet, nTest, hlen]
  · simp [testSet, nTest, hlen]
  · unfold mean_squared_error
    apply div_nonneg
    · unfold sqErrSum
      apply List.sum_nonneg
      intro x hx
      simp only [List.mem_map] at hx
      obtain ⟨p, hp, rfl⟩ := hx
      positivity
    · positivity

/-- C5 witness: the theorem applied to a concrete 10-row table with regions in
{North, South} and the constant-zero fit. -/
theorem C5_witness :
    (trainSet [(⟨"North", none, 10⟩ : RegRow), ⟨"North", none, 20⟩, ⟨"South", none, 30⟩,
      ⟨"South", none, 40⟩, ⟨"North", none, 50⟩, ⟨"South", none, 60⟩, ⟨"North", none, 70⟩,
      ⟨"South", none, 80⟩, ⟨"North", none, 90⟩, ⟨"South", none, 15⟩]).length = 8 ∧
    (testSet [(⟨"North", none, 10⟩ : RegRow), ⟨"North", none, 20⟩, ⟨"South", none, 30⟩,
      ⟨"South", none, 40⟩, ⟨"North", none, 50⟩, ⟨"South", none, 60⟩, ⟨"North", none, 70⟩,
      ⟨"South", none, 80⟩, ⟨"North", none, 90⟩, ⟨"South", none, 15⟩]).length = 2 ∧
    0 ≤ (regressionStage (fun _ _ => 0) [(⟨"North", none, 10⟩ : RegRow), ⟨"North", none, 20⟩,
      ⟨"South", none, 30⟩, ⟨"South", none, 40⟩, ⟨"North", none, 50⟩, ⟨"South", none, 60⟩,
      ⟨"North", none, 70⟩, ⟨"South", none, 80⟩, ⟨"North", none, 90⟩,
      ⟨"South", none, 15⟩]).2 := by
  have h := C5_regression_split (fun _ _ => 0)
    [(⟨"North", none, 10⟩ : RegRow), ⟨"North", none, 20⟩, ⟨"South", none, 30⟩,
      ⟨"South", none, 40⟩, ⟨"North", none, 50⟩, ⟨"South", none, 60⟩, ⟨"North", none, 70⟩,
      ⟨"South", none, 80⟩, ⟨"North", none, 90⟩, ⟨"South", none, 15⟩] rfl
  refine ⟨h.1, h.2.1, ?_⟩
  rw [h.2.2.2.1]
  exact h.2.2.2.2

/-- C6: the Cluster Engine is a pure function of the fixed seed 42 and the
enriched feature matrix — sklearn's seeded KMeans and silhouette are modelled
as deterministic functions, which is the library's contract for a fixed
`random_state` — so two runs on identical input produce identical labels, an
identical per-cluster summary, and an identical silhouette score. -/
theorem C6_cluster_reproducible (kmeans : ℕ → List Point → List ℕ)
    (sil : List Point → List ℕ → ℚ) (X Y : List Point) (h : X = Y) :
    clusterStage kmeans sil X = clusterStage kmeans sil Y := by
  rw [h]

/-- C6 witness: the theorem applied to a concrete one-point input with a
concrete labelling function and silhouette function. -/
theorem C6_witness :
    clusterStage (fun _ xs => xs.map fun _ => 0) (fun _ _ => 0) [(1, 2, 3, 4)] =
      clusterStage (fun _ xs => xs.map fun _ => 0) (fun _ _ => 0) [(1, 2, 3, 4)] :=
  C6_cluster_reproducible _ _ _ _ rfl

/-- C7: the total-count column is resolved by taking the first present name in
the fixed priority list Total_Employees, TOTAL10, TOTAL1; and when none is
present the Feature Deriver aborts with the schema-resolution failure before
computing any percentages. -/
theorem C7_total_alias_resolution (cols : List String) (rows : List Row) :
    resolveTotalCol cols =
      (if "Total_Employees" ∈ cols then some "Total_Employees"
       else if "TOTAL10" ∈ cols then some "TOTAL10"
       else if "TOTAL1" ∈ cols then some "TOTAL1" else none) ∧
    (resolveTotalCol cols = none →
      featureDerive cols rows = Except.error StageError.schemaResolutionError) := by
  constructor
  · by_cases hA : "Total_Employees" ∈ cols <;>
      by_cases hB : "TOTAL10" ∈ cols <;>
      by_cases hC : "TOTAL1" ∈ cols <;>
      simp [resolveTotalCol, totalAliases, List.find?, hA, hB, hC]
  · intro h
    simp [featureDerive, h]

/-- C7 witness: the theorem applied to a column list where the second alias is
the first present one, and to a column list with no alias at all. -/
theorem C7_witness :
    resolveTotalCol ["TOTAL1", "TOTAL10"] = some "TOTAL10" ∧
    featureDerive ["Region"] [] = Except.error StageError.schemaResolutionError := by
  constructor
  · exact (C7_total_alias_resolution ["TOTAL1", "TOTAL10"] []).1.trans (by decide)
  · exact (C7_total_alias_resolution ["Region"] []).2 (by decide)

/-- C8: once the total column resolves, a row yields an enriched record exactly
when every one of the four required percentage fields is non-null (the
conjunctive completeness filter); the stage signals the empty-result failure
precisely when the filter keeps nothing; and in that case every input row
indeed failed the completeness requirement. -/
theorem C8_empty_result (cols : List String) (rows : List Row) (c : String)
    (hc : resolveTotalCol cols = some c) :
    (∀ r : Row, (enrichRow r).isSome = surviveRow r) ∧
    (rows.filterMap enrichRow = [] ↔
      featureDerive cols rows = Except.error StageError.emptyResultError) ∧
    (featureDerive cols rows = Except.error StageError.emptyResultError →
      ∀ r ∈ rows, surviveRow r = false) := by
  have hiff : rows.filterMap enrichRow = [] ↔
      featureDerive cols rows = Except.error StageError.emptyResultError := by
    constructor
    · intro he
      simp [featureDerive, hc, he]
    · intro he
      by_cases hemp : rows.filterMap enrichRow = []
      · exact hemp
      · exfalso
        simp [featureDerive, hc, List.isEmpty_iff, hemp] at he
  refine ⟨enrichRow_isSome, hiff, ?_⟩
  intro he r hr
  have hnil := hiff.mpr he
  have hnone := List.filterMap_eq_nil_iff.mp hnil r hr
  rw [← enrichRow_isSome, hnone]
  rfl

/-- C8 witness: the theorem applied to a one-row table whose row has every cell
null: the filter keeps nothing and the stage signals the empty-result failure. -/
theorem C8_witness :
    (enrichRow ⟨none, none, none, none, none⟩).isSome = surviveRow ⟨none, none, none, none, none⟩ ∧
    featureDerive ["TOTAL10"] [⟨none, none, none, none, none⟩] =
      Except.error StageError.emptyResultError := by
  have h := C8_empty_result ["TOTAL10"] [⟨none, none, none, none, none⟩] "TOTAL10" (by decide)
  exact ⟨h.1 _, h.2.1.mp (by decide)⟩

/-- C9 counterexample: the claim says the Cleaner's output never contains a
`Pct_White` column; but a raw input that already has a column of that name
passes it through unchanged. -/
theorem C9_counterexample :
    "Pct_White" ∈ transformedCols ["Pct_White", "Region", "TOTAL10"] := by decide

/-- C9 (amended): the Cleaner never ADDS a `Pct_White` column: after the rename
no column is named `TOTAL10` (rename runs first, transform.py line 82), so the
derivation branch at line 85 is unreachable and the output has a `Pct_White`
column exactly when the raw input already had one. -/
theorem C9_pct_white_never_derived (cols : List String) :
    "TOTAL10" ∉ cols.map renameCol ∧
    transformedCols cols = cols.map renameCol ∧
    ("Pct_White" ∈ transformedCols cols ↔ "Pct_White" ∈ cols) := by
  have hno : "TOTAL10" ∉ cols.map renameCol := by
    intro hmem
    obtain ⟨c, hc, heq⟩ := List.mem_map.mp hmem
    by_cases h1 : c = "NAICS2_Name"
    · rw [renameCol, if_pos h1] at heq
      exact absurd heq (by decide)
    · by_cases h2 : c = "TOTAL10"
      · rw [renameCol, if_neg h1, if_pos h2] at heq
        exact absurd heq (by decide)
      · rw [renameCol, if_neg h1, if_neg h2] at heq
        exact h2 heq
  have htc : transformedCols cols = cols.map renameCol := by
    simp only [transformedCols]
    rw [if_neg (fun hand => hno hand.2)]
  refine ⟨hno, htc, ?_⟩
  rw [htc]
  constructor
  · intro hmem
    obtain ⟨c, hc, heq⟩ := List.mem_map.mp hmem
    by_cases h1 : c = "NAICS2_Name"
    · rw [renameCol, if_pos h1] at heq
      exact absurd heq (by decide)
    · by_cases h2 : c = "TOTAL10"
      · rw [renameCol, if_neg h1, if_pos h2] at heq
        exact absurd heq (by decide)
      · rw [renameCol, if_neg h1, if_neg h2] at heq
        rw [← heq]
        exact hc
  · intro hmem
    refine List.mem_map.mpr ⟨"Pct_White", hmem, ?_⟩
    decide

/-- C9 witness: the amended theorem applied to a column list containing WHT10,
TOTAL10 and a pre-existing Pct_White column. -/
theorem C9_witness :
    "Pct_White" ∈ transformedCols ["WHT10", "TOTAL10", "Pct_White"] ↔
      "Pct_White" ∈ ["WHT10", "TOTAL10", "Pct_White"] :=
  (C9_pct_white_never_derived ["WHT10", "TOTAL10", "Pct_White"]).2.2

/-- C10: the silhouette score the evaluation stage recomputes from the persisted
cluster table (feature columns and saved labels, in the same order the analysis
stage wrote them) equals the silhouette score the analysis stage computed at
fit time, given the library contract that KMeans returns one label per row. -/
theorem C10_silhouette_roundtrip (kmeans : ℕ → List Point → List ℕ)
    (sil : List Point → List ℕ → ℚ) (X : List Point)
    (hlen : (kmeans 42 X).length = X.length) :
    evaluate_models sil (clusteredTable kmeans X) = silhouetteAtFit kmeans sil X := by
  unfold evaluate_models clusteredTable silhouetteAtFit
  rw [List.map_fst_zip _ _ (le_of_eq hlen), List.map_snd_zip _ _ (le_of_eq hlen.symm)]

/-- C10 witness: the theorem applied to a two-point input with a concrete
length-preserving labelling function and a concrete silhouette function. -/
theorem C10_witness :
    evaluate_models (fun ps ls => (ps.length : ℚ) + (ls.length : ℚ))
        (clusteredTable (fun _ xs => xs.map fun _ => 0) [(1, 2, 3, 4), (5, 6, 7, 8)]) =
      silhouetteAtFit (fun _ xs => xs.map fun _ => 0)
        (fun ps ls => (ps.length : ℚ) + (ls.length : ℚ)) [(1, 2, 3, 4), (5, 6, 7, 8)] :=
  C10_silhouette_roundtrip _ _ _ (by simp)
